import Mathlib

/-!
Verification of the cdxbasics memoization core: the canonical hasher
(`cdxbasics.util.uniqueHashExt`), the cache-mode policy
(`cdxbasics.util.CacheMode`) and the disk-backed memoizing wrapper
(`cdxbasics.subdir.SubDir.cache`), shallowly embedded in Lean.

Python values that the hasher and the wrapper manipulate are embedded as the
inductive `PyVal`; fallible Python code is embedded in `Except PyErr`; the
external `hashlib` digests are treated as opaque deterministic functions of the
canonical byte stream (theorems are parameterised over them where their
properties matter, and `md5Model` / `shakeModel` are executable stand-ins).
The file-system directory used by one wrapped function is embedded as an
association list from key to stored blob.
-/

/-- Embedded domain of Python values handled by the claims: `None`, strings,
ints, bools, lists/tuples, dicts (association list of key/value pairs; Python
dict keys are unique, which theorems assume via `Nodup` hypotheses where it
matters), and callables (which the hasher ignores when `parse_functions` is
off, as in `uniqueHash`). -/
inductive PyVal where
  | none : PyVal
  | str (s : String) : PyVal
  | int (n : Int) : PyVal
  | bool (b : Bool) : PyVal
  | list (xs : List PyVal) : PyVal
  | dict (es : List (PyVal × PyVal)) : PyVal
  | func (name : String) : PyVal

/-- Python exceptions that the embedded code can raise. `verifyFailed` models
`cdxbasics.logger.Logger.verify` failing (the logger module is an excluded
collaborator; the spec treats verification plumbing as "fails with
<ErrorKind>"). `unpickleFailed` models a non-`EOFError` deserialization
failure propagating from `pickle.load`. -/
inductive PyErr where
  | typeError : PyErr
  | keyError (k : String) : PyErr
  | attributeError : PyErr
  | verifyFailed : PyErr
  | unpickleFailed : PyErr
deriving DecidableEq

/-- Is the character printable ASCII (0x20..0x7e)?  Python's `repr` emits such
characters of a string literally (except the chosen quote and backslash). -/
def printableASCII (c : Char) : Prop := 0x20 ≤ c.toNat ∧ c.toNat ≤ 0x7e

instance (c : Char) : Decidable (printableASCII c) := by
  unfold printableASCII; infer_instance

/-- All characters of the string are printable ASCII. -/
def strPrintable (s : String) : Prop := ∀ c ∈ s.data, printableASCII c

instance (s : String) : Decidable (strPrintable s) := by
  unfold strPrintable; infer_instance

/-- The quote character Python's `repr` picks for a string: `'` unless the
string contains `'` and no `"`. -/
def pyQuote (s : String) : Char :=
  if s.data.contains '\'' && !(s.data.contains '"') then '"' else '\''

/-- Escape of one character inside a Python string repr with quote `q`:
backslash and the quote are backslash-escaped, `\n`, `\r`, `\t` become their
two-character escapes, other printable-ASCII characters stand for themselves;
non-printable or non-ASCII characters are hex-escaped (modelled for the ASCII
range; claims only evaluate repr on ASCII data). -/
def pyCharEsc (q : Char) (c : Char) : List Char :=
  if c = '\\' ∨ c = q then ['\\', c]
  else if c = '\n' then ['\\', 'n']
  else if c = '\r' then ['\\', 'r']
  else if c = '\t' then ['\\', 't']
  else if 0x20 ≤ c.toNat ∧ c.toNat ≤ 0x7e then [c]
  else '\\' :: 'x' :: (Nat.toDigits 16 c.toNat)

/-- Python `repr` of a string: quote, escaped body, quote. -/
def pyStrRepr (s : String) : String :=
  let q := pyQuote s
  String.mk (q :: s.data.flatMap (pyCharEsc q) ++ [q])

/-- Python `repr` of the values the hasher feeds to `update` (the hasher only
calls `repr` on atomic values and on dict keys that survived the `[:1]` slice,
i.e. strings; the remaining cases are unreachable there and are stubbed). -/
def pyRepr : PyVal → String
  | .str s => pyStrRepr s
  | .int n => toString n
  | .bool b => if b then "True" else "False"
  | .none => "None"
  | .list _ => ""
  | .dict _ => ""
  | .func _ => ""

/-- String key of a dict entry whose key is known to be a string (used to sort
all-string key lists; the default is never reached in that branch). -/
def keyStr : PyVal → String
  | .str s => s
  | _ => ""

/-- Int key of a dict entry whose key is known to be an int. -/
def keyInt : PyVal → Int
  | .int n => n
  | _ => 0

/-- Order on dict entries with string keys: Python `sorted` compares the keys
(strings lexicographically by code point, which is `String.le`). -/
def entryLeStr (a b : PyVal × PyVal) : Prop := keyStr a.1 ≤ keyStr b.1

instance : DecidableRel entryLeStr := fun a b => by
  unfold entryLeStr; infer_instance

instance : IsTotal (PyVal × PyVal) entryLeStr :=
  ⟨fun a b => le_total (keyStr a.1) (keyStr b.1)⟩

instance : IsTrans (PyVal × PyVal) entryLeStr :=
  ⟨fun _ _ _ hab hbc => le_trans hab hbc⟩

/-- Order on dict entries with int keys. -/
def entryLeInt (a b : PyVal × PyVal) : Prop := keyInt a.1 ≤ keyInt b.1

instance : DecidableRel entryLeInt := fun a b => by
  unfold entryLeInt; infer_instance

instance : IsTotal (PyVal × PyVal) entryLeInt :=
  ⟨fun a b => le_total (keyInt a.1) (keyInt b.1)⟩

instance : IsTrans (PyVal × PyVal) entryLeInt :=
  ⟨fun _ _ _ hab hbc => le_trans hab hbc⟩

/-- Strict key order on dict entries with string keys (proof infrastructure:
entry lists with `Nodup` keys sorted by `entryLeStr` are pairwise in this
strict order, which pins the sorted list down uniquely). -/
def entryLtStr (a b : PyVal × PyVal) : Prop := keyStr a.1 < keyStr b.1

instance : IsAntisymm (PyVal × PyVal) entryLtStr :=
  ⟨fun _ _ h1 h2 => absurd h1 (lt_asymm h2)⟩

/-- Is the dict key a string? -/
def isStrKey : PyVal → Bool
  | .str _ => true
  | _ => false

/-- Is the dict key an int? -/
def isIntKey : PyVal → Bool
  | .int _ => true
  | _ => false

/-- Model of `sorted(inn.keys())` lifted to the entry list: Python's sort makes
no comparison on lists of length ≤ 1; all-string and all-int key lists sort by
the key order; heterogeneous longer lists raise `TypeError`.  Sorting the
entries by key is the same as sorting the keys and looking each one up, since
Python dict keys are unique. -/
def pySortEntries (es : List (PyVal × PyVal)) : Except PyErr (List (PyVal × PyVal)) :=
  if es.length ≤ 1 then .ok es
  else if es.all (fun e => isStrKey e.1) then .ok (es.insertionSort entryLeStr)
  else if es.all (fun e => isIntKey e.1) then .ok (es.insertionSort entryLeInt)
  else .error .typeError

/-- Model of the `k[:1] == '_'` test on a dict key: slicing a string yields its
first character, slicing a list/tuple yields a list (never equal to `'_'`),
and slicing any other key raises `TypeError`. -/
def keySkip : PyVal → Except PyErr Bool
  | .str s => .ok (s.take 1 = "_")
  | .list _ => .ok false
  | _ => .error .typeError

/-- The skip test of the `Collection` branch of `unique_hash.visit`:
`isinstance(k, str) and k[:1] == "_"`. -/
def skipElem : PyVal → Bool
  | .str s => s.take 1 == "_"
  | _ => false

/-- Permutations preserve `sizeOf` (used for termination of `visit`). -/
theorem perm_sizeOf {α} [SizeOf α] {l₁ l₂ : List α} (h : l₁.Perm l₂) :
    sizeOf l₁ = sizeOf l₂ := by
  induction h with
  | nil => rfl
  | cons x _ ih => simp [ih]
  | swap x y l => simp; omega
  | trans _ _ ih₁ ih₂ => omega

/-- A successful `pySortEntries` preserves `sizeOf` (it permutes the list). -/
theorem pySortEntries_sizeOf {es es' : List (PyVal × PyVal)}
    (h : pySortEntries es = .ok es') : sizeOf es' = sizeOf es := by
  unfold pySortEntries at h
  split at h
  · cases h; rfl
  · split at h
    · cases h; exact perm_sizeOf (List.perm_insertionSort _ _)
    · split at h
      · cases h; exact perm_sizeOf (List.perm_insertionSort _ _)
      · cases h

mutual

/-- The tree walk of `uniqueHashExt(...).unique_hash.visit` with
`parse_functions = False` (as used by `uniqueHash`), returning the list of
strings fed to the digest's `update` (each is `repr(...)` of the fed object):
`None` contributes nothing; functions and properties contribute nothing;
atomic values are fed via `repr`; dicts feed their sorted keys, skipping
keys whose `[:1]` slice is `'_'`, each kept key followed by the visit of its
value; other collections are visited in order, skipping string elements that
start with `'_'`. -/
def visit (x : PyVal) : Except PyErr (List String) :=
  match x with
  | .none => .ok []
  | .func _ => .ok []
  | .str s => .ok [pyRepr (.str s)]
  | .int n => .ok [pyRepr (.int n)]
  | .bool b => .ok [pyRepr (.bool b)]
  | .list xs => visitList xs
  | .dict es =>
    match h : pySortEntries es with
    | .error e => .error e
    | .ok es' => visitEntries es'
termination_by sizeOf x
decreasing_by
  all_goals simp_wf
  all_goals first
    | omega
    | (have hsz : _ = sizeOf es := pySortEntries_sizeOf h
       omega)

/-- The `Collection` branch loop of `visit`. -/
def visitList (xs : List PyVal) : Except PyErr (List String) :=
  match xs with
  | [] => .ok []
  | k :: rest =>
    if skipElem k then visitList rest
    else
      match visit k with
      | .error e => .error e
      | .ok s =>
        match visitList rest with
        | .error e => .error e
        | .ok srest => .ok (s ++ srest)
termination_by sizeOf xs
decreasing_by
  all_goals simp_wf
  all_goals omega

/-- The `Mapping` branch loop of `visit`, running over the sorted entries:
for each key, evaluate the `[:1] == '_'` skip test (raising `TypeError` on an
unsliceable key), and for a kept key feed `update(k)` then visit the value. -/
def visitEntries (es : List (PyVal × PyVal)) : Except PyErr (List String) :=
  match es with
  | [] => .ok []
  | (k, v) :: rest =>
    match keySkip k with
    | .error e => .error e
    | .ok true => visitEntries rest
    | .ok false =>
      match visit v with
      | .error e => .error e
      | .ok sv =>
        match visitEntries rest with
        | .error e => .error e
        | .ok srest => .ok (pyRepr k :: (sv ++ srest))
termination_by sizeOf es
decreasing_by
  all_goals simp_wf
  all_goals omega

end

/-- Keyword arguments as the hasher sees them: a dict whose keys are the
keyword names. -/
def toEntries (kw : List (String × PyVal)) : List (PyVal × PyVal) :=
  kw.map (fun p => (PyVal.str p.1, p.2))

/-- The canonical update stream of `unique_hash(*args, **kwargs)`:
`visit(args)` (a tuple) followed by `visit(kwargs)` (a dict). -/
def uniqueHashStream (args : List PyVal) (kwargs : List (String × PyVal)) :
    Except PyErr (List String) :=
  match visit (.list args) with
  | .error e => .error e
  | .ok s1 =>
    match visit (.dict (toEntries kwargs)) with
    | .error e => .error e
    | .ok s2 => .ok (s1 ++ s2)

/-- Executable stand-in for `hashlib.md5(...).hexdigest()`: an opaque
deterministic function of the canonical byte stream.  Theorems that depend on
digest properties are parameterised over the digest function instead. -/
def md5Model (s : String) : String := s

/-- One hex digit. -/
def hexChar (n : Nat) : Char :=
  if n < 10 then Char.ofNat (48 + n) else Char.ofNat (87 + n % 16)

/-- Executable stand-in for `hashlib.shake_128(...).hexdigest(k)`: an opaque
deterministic function of the canonical byte stream returning `2*k` hex
characters, which is the shape of the real `shake_128` output. -/
def shakeModel (s : String) (k : Nat) : String :=
  String.mk ((List.range (2 * k)).map (fun i => hexChar ((s.length + i) % 16)))

/-- Model of `uniqueHashExt(length)(*args, **kwargs)` with the two `hashlib` digests
passed as parameters: the update stream is concatenated (MD5/SHAKE hash the
concatenation of the `update` calls), then `m.hexdigest()` if `length` is
`None`, else `m.hexdigest(length // 2)`. -/
def uniqueHashExtM (md5 : String → String) (shake : String → Nat → String)
    (length : Option Nat) (args : List PyVal) (kwargs : List (String × PyVal)) :
    Except PyErr String :=
  match uniqueHashStream args kwargs with
  | .error e => .error e
  | .ok st =>
    match length with
    | Option.none => .ok (md5 (String.join st))
    | Option.some n => .ok (shake (String.join st) (n / 2))

/-! ## The cache-mode policy (`cdxbasics.util.CacheMode`) -/

/-- The result of `CacheMode.__init__`: the mode string and the four
pre-computed facet booleans, named as in the source. -/
structure CacheModeS where
  mode : String
  read : Bool
  write : Bool
  delete : Bool
  del_incomp : Bool
deriving DecidableEq

/-- The list `CacheMode.MODES`. -/
def CACHE_MODES : List String := ["on", "gen", "off", "update", "clear", "readonly"]

/-- Model of `CacheMode.__init__(mode)`: `None` defaults to `"on"`; a string not in
`MODES` raises `KeyError`; otherwise the four facets are computed by list
membership exactly as in the source:
`_read = mode in [ON, READONLY, GEN]`, `_write = mode in [ON, UPDATE, GEN]`,
`_delete = mode in [UPDATE, CLEAR]`, `_del_in = mode in [UPDATE, CLEAR, ON]`. -/
def cacheModeInit (mode : Option String) : Except PyErr CacheModeS :=
  let m := mode.getD "on"
  if CACHE_MODES.contains m then
    .ok { mode := m
          read := (["on", "readonly", "gen"] : List String).contains m
          write := (["on", "update", "gen"] : List String).contains m
          delete := (["update", "clear"] : List String).contains m
          del_incomp := (["update", "clear", "on"] : List String).contains m }
  else .error (.keyError m)

/-- The §4.2 facet table exactly as written in the spec (and in the
`CacheMode` docstring): for each mode name,
(read-on-start, write-on-success, delete-unconditional-on-start,
delete-if-incompatible). -/
def specFacetTable : String → Option (Bool × Bool × Bool × Bool)
  | "on" => Option.some (true, true, false, true)
  | "gen" => Option.some (true, true, false, false)
  | "off" => Option.some (false, false, false, false)
  | "update" => Option.some (false, true, false, true)
  | "clear" => Option.some (false, false, true, true)
  | "readonly" => Option.some (true, false, false, false)
  | _ => Option.none

/-! ## The store and the memoizing wrapper (`cdxbasics.subdir.SubDir.cache`)

The directory `f_subDir` that one wrapped function uses is embedded as an
association list from key (the argument hash) to the stored blob.  A stored
blob is either a well-pickled value, or content whose unpickling raises
`EOFError`, or content whose unpickling raises some other exception — the two
corruption shapes `SubDir._read` distinguishes. -/

/-- A persisted cache entry as `pickle.load` sees it. -/
inductive Blob where
  | val (v : PyVal) : Blob
  | corruptEOF : Blob
  | corruptOther : Blob

/-- File lookup in the directory. -/
def lookupKey : List (String × Blob) → String → Option Blob
  | [], _ => Option.none
  | (k, b) :: rest, key => if k = key then Option.some b else lookupKey rest key

/-- Model of `os.remove` via `SubDir.delete(key)` (silent): the file is gone afterwards. -/
def eraseKey (st : List (String × Blob)) (key : String) : List (String × Blob) :=
  st.filter (fun p => p.1 ≠ key)

/-- Model of `SubDir.write(key, obj)`: (over)write the file for `key`. -/
def insertKey (st : List (String × Blob)) (key : String) (b : Blob) :
    List (String × Blob) :=
  (key, b) :: eraseKey st key

/-- Keyword-argument lookup (`'caching' in kwargs` / `kwargs['caching']`). -/
def kwLookup : List (String × PyVal) → String → Option PyVal
  | [], _ => Option.none
  | (k, v) :: rest, key => if k = key then Option.some v else kwLookup rest key

/-- Model of `del kwargs['caching']`. -/
def kwErase (kw : List (String × PyVal)) (key : String) : List (String × PyVal) :=
  kw.filter (fun p => p.1 ≠ key)

/-- Model of `SubDir.fullKeyName(key)` for a directory whose path is `path` and whose
extension is the default `".pck"`: append the extension unless the key already
ends with it. -/
def fullKeyName (path key : String) : String :=
  if ¬ key.endsWith ".pck" then path ++ key ++ ".pck" else path ++ key

/-- The path of `f_subDir` inside `SubDir.cache`:
`self.subDir(f.__module__[0:64]).subDir(f.__name__[0:64])` — each component
truncated to 64 characters (the directory-collision truncation the spec
documents). -/
def cacheDirPath (root mod name : String) : String :=
  root ++ (mod.take 64) ++ "/" ++ (name.take 64) ++ "/"

/-- Modelled from the spec: `cdxbasics.logger.Logger.verify` (the `logger`
module is not under `src/`; per the spec, logging/verification plumbing is an
excluded collaborator that "fails with <ErrorKind>").  `verify(cond, ...)`
raises when `cond` is false and does nothing otherwise.  `_log.warning` is
modelled as incrementing the warning counter carried next to the store. -/
def logVerify (cond : Bool) : Except PyErr Unit :=
  if cond then .ok () else .error .verifyFailed

/-- Model of Python `str.lower()` (character-wise lower-casing), used on the
value of the `caching` control keyword. -/
def pyLower (s : String) : String := String.mk (s.data.map Char.toLower)

/-- The post-call introspection attributes the wrapper stores on itself:
`wrapper.cached`, `wrapper.cacheArgKey`, `wrapper.cacheFullKey`. -/
structure WState where
  cached : Bool
  cacheArgKey : Option String
  cacheFullKey : Option String

/-- Everything observable about one call of the wrapped function: the returned
value or the exception, the directory contents afterwards, the wrapper
attributes afterwards, how many warnings were logged, and how many times the
body of `f` ran. -/
structure CallOut where
  res : Except PyErr PyVal
  store : List (String × Blob)
  ws : WState
  warns : Nat
  fCalls : Nat

/-- The body of `SubDir.cache.wrapper` after the `caching` control keyword has
been extracted (lower-cased) and removed from `kwargs`:

* `caching == 'no'`: set `cached=False`, `cacheArgKey=None`,
  `cacheFullKey=None` and call `f` directly — no I/O;
* `_log.verify(caching in ['yes','clear','update'])` — any other token raises;
* `key = uniqueHash(f.__module__, f.__name__, vargs, kwargs)`; record
  `cacheArgKey`, `cacheFullKey`, `cached=False`;
* `caching != 'yes'`: silently delete the entry at `key`;
* `caching == 'clear'`: call `f` and return without writing;
* `caching == 'yes'` and the entry exists: set `cached=True` then return
  `f_subDir[key]`, i.e. read with `throwOnError=True` — well-pickled content
  is returned; content raising `EOFError` is deleted with a warning and then
  `KeyError` is raised; other unpickling failures propagate;
* otherwise call `f`, write the result (twice, as the source does), return it.

The digest function (`hashlib.md5` hexdigest) is a parameter. -/
def wrapperCore (digest : String → String) (root mod name : String)
    (f : List PyVal → List (String × PyVal) → PyVal)
    (vargs : List PyVal) (kwargs : List (String × PyVal)) (caching : String)
    (st : List (String × Blob)) (ws : WState) : CallOut :=
  if caching = "no" then
    ⟨.ok (f vargs kwargs), st, ⟨false, Option.none, Option.none⟩, 0, 1⟩
  else
    match logVerify (caching = "yes" ∨ caching = "clear" ∨ caching = "update") with
    | .error e => ⟨.error e, st, ws, 0, 0⟩
    | .ok _ =>
      match uniqueHashStream [.str mod, .str name, .list vargs, .dict (toEntries kwargs)] [] with
      | .error e => ⟨.error e, st, ws, 0, 0⟩
      | .ok strm =>
        let key := digest (String.join strm)
        let ws1 : WState := ⟨false, Option.some key,
          Option.some (fullKeyName (cacheDirPath root mod name) key)⟩
        let st1 := if caching ≠ "yes" then eraseKey st key else st
        if caching = "clear" then
          ⟨.ok (f vargs kwargs), st1, ws1, 0, 1⟩
        else if caching = "yes" then
          match lookupKey st1 key with
          | Option.some (.val v) => ⟨.ok v, st1, { ws1 with cached := true }, 0, 0⟩
          | Option.some .corruptEOF =>
            ⟨.error (.keyError key), eraseKey st1 key, { ws1 with cached := true }, 1, 0⟩
          | Option.some .corruptOther =>
            ⟨.error .unpickleFailed, st1, { ws1 with cached := true }, 0, 0⟩
          | Option.none =>
            let v := f vargs kwargs
            ⟨.ok v, insertKey (insertKey st1 key (.val v)) key (.val v), ws1, 0, 1⟩
        else
          let v := f vargs kwargs
          ⟨.ok v, insertKey (insertKey st1 key (.val v)) key (.val v), ws1, 0, 1⟩

/-- One call of the wrapped function produced by `SubDir.cache`: the control
keyword `caching` defaults to `'yes'`; if present its value is lower-cased
(`AttributeError` if it is not a string) and removed from the keyword
arguments before hashing and before forwarding to `f`. -/
def wrapperCall (digest : String → String) (root mod name : String)
    (f : List PyVal → List (String × PyVal) → PyVal)
    (vargs : List PyVal) (kwargs : List (String × PyVal))
    (st : List (String × Blob)) (ws : WState) : CallOut :=
  match kwLookup kwargs "caching" with
  | Option.none => wrapperCore digest root mod name f vargs kwargs "yes" st ws
  | Option.some (.str s) =>
    wrapperCore digest root mod name f vargs (kwErase kwargs "caching") (pyLower s) st ws
  | Option.some _ => ⟨.error .attributeError, st, ws, 0, 0⟩

/-- The cache key the wrapper computes for one call:
`key = uniqueHash(f.__module__, f.__name__, vargs, kwargs)`, with the MD5
hexdigest abstracted as `digest` applied to the concatenated update stream. -/
def cacheArgKeyOf (digest : String → String) (mod name : String)
    (vargs : List PyVal) (kwargs : List (String × PyVal)) : Except PyErr String :=
  match uniqueHashStream [.str mod, .str name, .list vargs, .dict (toEntries kwargs)] [] with
  | .error e => .error e
  | .ok strm => .ok (digest (String.join strm))

/-! ## Helper lemmas -/

theorem lookupKey_insertKey (st : List (String × Blob)) (k : String) (b : Blob) :
    lookupKey (insertKey st k b) k = Option.some b := by
  simp [insertKey, lookupKey]

theorem foldl_append_shift (l : List String) (x y : String) :
    l.foldl (fun r s => r ++ s) (x ++ y) = x ++ l.foldl (fun r s => r ++ s) y := by
  induction l generalizing y with
  | nil => rfl
  | cons h t ih => simpa [String.append_assoc] using ih (y ++ h)

theorem join_cons (a : String) (l : List String) :
    String.join (a :: l) = a ++ String.join l := by
  have h2 := foldl_append_shift l a ""
  simpa [String.join, List.foldl] using h2

theorem visit_list_nil : visit (.list []) = .ok [] := by
  simp [visit, visitList]

theorem visit_dict_nil : visit (.dict []) = .ok [] := by
  simp [visit, pySortEntries, visitEntries]

theorem shakeModel_length (s : String) (k : Nat) : (shakeModel s k).length = 2 * k := by
  simp [shakeModel, String.length_mk]

theorem uniqueHashStream_int1 : uniqueHashStream [.int 1] [] = .ok ["1"] := by
  simp [uniqueHashStream, visit, visitList, visitEntries, pySortEntries, toEntries,
    skipElem, pyRepr]
  decide

/-! ## C2 -/

/-- C2: the claim says every facet of every constructed `CacheMode` matches
the §4.2 table, in particular that mode `update` has
delete-unconditional-on-start = no.  Evaluating the code at mode `"update"`
shows its `delete` facet is `true` (the source computes
`_delete = mode in [UPDATE, CLEAR]`), while the spec table — and the
`CacheMode` docstring itself — give `no` for that cell; the other three facets
of `update` match.  This is the code contradicting its own documentation. -/
theorem cacheMode_update_delete_facet_bug :
    (cacheModeInit (Option.some "update")).map
        (fun c => (c.read, c.write, c.delete, c.del_incomp)) = .ok (false, true, true, true)
    ∧ specFacetTable "update" = Option.some (false, true, false, true) :=
  ⟨rfl, rfl⟩

/-! ## C10 -/

/-- C10: hashing a mapping with a non-string (integer) key raises: the
`k[:1]` slice in the mapping branch needs a sliceable key, so
`uniqueHash({1: 2})` fails with `TypeError` even though the integer `1` by
itself is a supported atomic value (second conjunct). -/
theorem uniqueHash_int_dict_key_raises :
    uniqueHashExtM md5Model shakeModel Option.none [.dict [(.int 1, .int 2)]] []
      = .error .typeError
    ∧ uniqueHashExtM md5Model shakeModel Option.none [.int 1] [] = .ok "1" := by
  constructor
  · have h1 : uniqueHashStream [.dict [(.int 1, .int 2)]] [] = .error .typeError := by
      simp [uniqueHashStream, visit, visitList, visitEntries, pySortEntries,
        toEntries, skipElem, keySkip, pyRepr]
    rw [uniqueHashExtM, h1]
  · rw [uniqueHashExtM, uniqueHashStream_int1]
    simp [md5Model, String.join]

/-! ## C7 -/

/-- C7 counterexample: with digest length 33 the hasher returns
`hexdigest(33 // 2) = hexdigest(16)`, a string of 32 characters, not 33 — the
claim "exactly n characters for every specified digest length n" fails at the
odd length 33. -/
theorem uniqueHashExt_odd_length_counterexample :
    (uniqueHashExtM md5Model shakeModel (Option.some 33) [.int 1] []).map String.length
      = .ok 32
    ∧ (32 : Nat) ≠ 33 := by
  constructor
  · have h1 : uniqueHashExtM md5Model shakeModel (Option.some 33) [.int 1] []
        = .ok (shakeModel (String.join ["1"]) (33 / 2)) := by
      rw [uniqueHashExtM, uniqueHashStream_int1]
    rw [h1]
    simp [Except.map, shakeModel_length]
  · decide

/-- C7 (amended): for every digest length `n` the truncated hasher returns a
string of exactly `2 * (n / 2)` characters — which is `n` exactly when `n` is
even — and repeated invocation on the same arguments returns the same string.
Stated for any `shake` digest that returns `2*k` hex characters from
`hexdigest(k)`, which is the `shake_128` contract. -/
theorem uniqueHashExt_truncated_length (md5 : String → String)
    (shake : String → Nat → String)
    (hshake : ∀ s k, (shake s k).length = 2 * k)
    (n : Nat) (args : List PyVal) (kwargs : List (String × PyVal)) (st : List String)
    (hst : uniqueHashStream args kwargs = .ok st) :
    (uniqueHashExtM md5 shake (Option.some n) args kwargs).map String.length
      = .ok (2 * (n / 2))
    ∧ (n % 2 = 0 →
        (uniqueHashExtM md5 shake (Option.some n) args kwargs).map String.length = .ok n)
    ∧ uniqueHashExtM md5 shake (Option.some n) args kwargs
        = uniqueHashExtM md5 shake (Option.some n) args kwargs := by
  have h1 : uniqueHashExtM md5 shake (Option.some n) args kwargs
      = .ok (shake (String.join st) (n / 2)) := by
    rw [uniqueHashExtM, hst]
  refine ⟨?_, ?_, rfl⟩
  · rw [h1]; simp [Except.map, hshake]
  · intro he; rw [h1]; simp [Except.map, hshake]; omega

/-- Witness for C7: at digest length 32 and argument `1`, the hypotheses hold
and the returned digest has exactly 32 characters. -/
theorem uniqueHashExt_truncated_length_witness :
    uniqueHashStream [.int 1] [] = .ok ["1"]
    ∧ (uniqueHashExtM md5Model shakeModel (Option.some 32) [.int 1] []).map String.length
        = .ok (2 * (32 / 2)) :=
  ⟨uniqueHashStream_int1,
    (uniqueHashExt_truncated_length md5Model shakeModel shakeModel_length 32 _ _ _
      uniqueHashStream_int1).1⟩

theorem wrapperCall_default (digest : String → String) (root mod name : String)
    (f : List PyVal → List (String × PyVal) → PyVal)
    (vargs : List PyVal) (kwargs : List (String × PyVal))
    (st : List (String × Blob)) (ws : WState)
    (hnc : kwLookup kwargs "caching" = Option.none) :
    wrapperCall digest root mod name f vargs kwargs st ws =
      wrapperCore digest root mod name f vargs kwargs "yes" st ws := by
  simp [wrapperCall, hnc]

theorem wrapperCore_yes_miss (digest : String → String) (root mod name : String)
    (f : List PyVal → List (String × PyVal) → PyVal)
    (vargs : List PyVal) (kwargs : List (String × PyVal))
    (st : List (String × Blob)) (ws : WState) (strm : List String)
    (hstrm : uniqueHashStream [.str mod, .str name, .list vargs, .dict (toEntries kwargs)] []
      = .ok strm)
    (key : String) (hkey : key = digest (String.join strm))
    (hmiss : lookupKey st key = Option.none) :
    wrapperCore digest root mod name f vargs kwargs "yes" st ws =
      ⟨.ok (f vargs kwargs),
        insertKey (insertKey st key (.val (f vargs kwargs))) key (.val (f vargs kwargs)),
        ⟨false, Option.some key,
          Option.some (fullKeyName (cacheDirPath root mod name) key)⟩, 0, 1⟩ := by
  subst hkey
  simp [wrapperCore, logVerify, hstrm, hmiss]

theorem wrapperCore_yes_hit (digest : String → String) (root mod name : String)
    (f : List PyVal → List (String × PyVal) → PyVal)
    (vargs : List PyVal) (kwargs : List (String × PyVal))
    (st : List (String × Blob)) (ws : WState) (strm : List String)
    (hstrm : uniqueHashStream [.str mod, .str name, .list vargs, .dict (toEntries kwargs)] []
      = .ok strm)
    (key : String) (hkey : key = digest (String.join strm)) (v : PyVal)
    (hhit : lookupKey st key = Option.some (.val v)) :
    wrapperCore digest root mod name f vargs kwargs "yes" st ws =
      ⟨.ok v, st,
        ⟨true, Option.some key,
          Option.some (fullKeyName (cacheDirPath root mod name) key)⟩, 0, 0⟩ := by
  subst hkey
  simp [wrapperCore, logVerify, hstrm, hhit]

theorem wrapperCore_yes_eof (digest : String → String) (root mod name : String)
    (f : List PyVal → List (String × PyVal) → PyVal)
    (vargs : List PyVal) (kwargs : List (String × PyVal))
    (st : List (String × Blob)) (ws : WState) (strm : List String)
    (hstrm : uniqueHashStream [.str mod, .str name, .list vargs, .dict (toEntries kwargs)] []
      = .ok strm)
    (key : String) (hkey : key = digest (String.join strm))
    (hcor : lookupKey st key = Option.some .corruptEOF) :
    wrapperCore digest root mod name f vargs kwargs "yes" st ws =
      ⟨.error (.keyError key), eraseKey st key,
        ⟨true, Option.some key,
          Option.some (fullKeyName (cacheDirPath root mod name) key)⟩, 1, 0⟩ := by
  subst hkey
  simp [wrapperCore, logVerify, hstrm, hcor]

theorem wrapperCore_yes_other (digest : String → String) (root mod name : String)
    (f : List PyVal → List (String × PyVal) → PyVal)
    (vargs : List PyVal) (kwargs : List (String × PyVal))
    (st : List (String × Blob)) (ws : WState) (strm : List String)
    (hstrm : uniqueHashStream [.str mod, .str name, .list vargs, .dict (toEntries kwargs)] []
      = .ok strm)
    (key : String) (hkey : key = digest (String.join strm))
    (hcor : lookupKey st key = Option.some .corruptOther) :
    wrapperCore digest root mod name f vargs kwargs "yes" st ws =
      ⟨.error .unpickleFailed, st,
        ⟨true, Option.some key,
          Option.some (fullKeyName (cacheDirPath root mod name) key)⟩, 0, 0⟩ := by
  subst hkey
  simp [wrapperCore, logVerify, hstrm, hcor]

theorem wrapperCore_clear_eval (digest : String → String) (root mod name : String)
    (f : List PyVal → List (String × PyVal) → PyVal)
    (vargs : List PyVal) (kwargs : List (String × PyVal))
    (st : List (String × Blob)) (ws : WState) (strm : List String)
    (hstrm : uniqueHashStream [.str mod, .str name, .list vargs, .dict (toEntries kwargs)] []
      = .ok strm)
    (key : String) (hkey : key = digest (String.join strm)) :
    wrapperCore digest root mod name f vargs kwargs "clear" st ws =
      ⟨.ok (f vargs kwargs), eraseKey st key,
        ⟨false, Option.some key,
          Option.some (fullKeyName (cacheDirPath root mod name) key)⟩, 0, 1⟩ := by
  subst hkey
  simp [wrapperCore, logVerify, hstrm]

theorem wrapperCore_update_eval (digest : String → String) (root mod name : String)
    (f : List PyVal → List (String × PyVal) → PyVal)
    (vargs : List PyVal) (kwargs : List (String × PyVal))
    (st : List (String × Blob)) (ws : WState) (strm : List String)
    (hstrm : uniqueHashStream [.str mod, .str name, .list vargs, .dict (toEntries kwargs)] []
      = .ok strm)
    (key : String) (hkey : key = digest (String.join strm)) :
    wrapperCore digest root mod name f vargs kwargs "update" st ws =
      ⟨.ok (f vargs kwargs),
        insertKey (insertKey (eraseKey st key) key (.val (f vargs kwargs))) key
          (.val (f vargs kwargs)),
        ⟨false, Option.some key,
          Option.some (fullKeyName (cacheDirPath root mod name) key)⟩, 0, 1⟩ := by
  subst hkey
  simp [wrapperCore, logVerify, hstrm]

theorem kwLookup_kwErase (kw : List (String × PyVal)) (k : String) :
    kwLookup (kwErase kw k) k = Option.none := by
  induction kw with
  | nil => rfl
  | cons p t ih =>
    by_cases hp : p.1 = k
    · simpa [kwErase, List.filter_cons, hp] using ih
    · simpa [kwErase, List.filter_cons, hp, kwLookup] using ih

theorem wrapperCall_token (digest : String → String) (root mod name : String)
    (f : List PyVal → List (String × PyVal) → PyVal)
    (vargs : List PyVal) (kwargs : List (String × PyVal))
    (st : List (String × Blob)) (ws : WState) (s : String)
    (hc : kwLookup kwargs "caching" = Option.some (.str s)) :
    wrapperCall digest root mod name f vargs kwargs st ws =
      wrapperCore digest root mod name f vargs (kwErase kwargs "caching") (pyLower s) st ws := by
  simp [wrapperCall, hc]

theorem uniqueHashStream_mf3 :
    uniqueHashStream [.str "m", .str "f", .list [.int 3], .dict (toEntries [])] []
      = .ok ["'m'", "'f'", "3"] := by
  simp +decide [uniqueHashStream, visit, visitList, visitEntries, pySortEntries,
    toEntries, skipElem, keySkip, pyRepr, pyStrRepr, pyQuote, pyCharEsc]

theorem join_mf3 : String.join ["'m'", "'f'", "3"] = "'m''f'3" := by
  simp [join_cons]
  decide

/-! ## C5 -/

/-- C5: a call with control token `'no'` (the code's spelling of mode `Off`)
calls the target directly on the remaining arguments and returns its result,
records `cached = false` with `cacheArgKey` and `cacheFullKey` both `None`,
logs nothing, runs the body exactly once, and leaves the store — every
persisted cache entry — unchanged. -/
theorem wrapper_caching_no_bypasses_cache (digest : String → String)
    (root mod name : String) (f : List PyVal → List (String × PyVal) → PyVal)
    (vargs : List PyVal) (kwargs : List (String × PyVal))
    (st : List (String × Blob)) (ws : WState) (s : String)
    (hc : kwLookup kwargs "caching" = Option.some (.str s))
    (hlow : pyLower s = "no") :
    wrapperCall digest root mod name f vargs kwargs st ws =
      ⟨.ok (f vargs (kwErase kwargs "caching")), st,
        ⟨false, Option.none, Option.none⟩, 0, 1⟩ := by
  simp [wrapperCall, hc, hlow, wrapperCore]

/-- Witness for C5 at a concrete call: `caching='NO'` (lower-cased to `'no'`)
on a store holding one entry; the entry survives and `f` runs once. -/
theorem wrapper_caching_no_bypasses_cache_witness :
    kwLookup [("caching", PyVal.str "NO")] "caching" = Option.some (.str "NO")
    ∧ pyLower "NO" = "no"
    ∧ wrapperCall (fun s => s) "r/" "m" "f" (fun _ _ => .int 6) [.int 3]
        [("caching", PyVal.str "NO")] [("k", Blob.val (.int 7))]
        ⟨false, Option.none, Option.none⟩ =
      ⟨.ok (.int 6), [("k", Blob.val (.int 7))],
        ⟨false, Option.none, Option.none⟩, 0, 1⟩ :=
  ⟨rfl, by decide,
    wrapper_caching_no_bypasses_cache (fun s => s) "r/" "m" "f" (fun _ _ => .int 6)
      [.int 3] [("caching", PyVal.str "NO")] [("k", Blob.val (.int 7))]
      ⟨false, Option.none, Option.none⟩ "NO" rfl (by decide)⟩

/-! ## C4 -/

/-- C4 counterexample: the claim says the control keyword accepts any of the
six `CacheMode` names, and that a `readonly` call with an existing entry at
the computed key returns the stored value and does not fail.  At the concrete
call `f(3)` with `caching='readonly'` the computed key is `'m''f'3` (second
conjunct), the store holds a good entry at that key (third conjunct), and the
call nevertheless fails with the verification error raised for an unknown
token. -/
theorem wrapper_readonly_rejected_counterexample :
    (wrapperCall (fun s => s) "r/" "m" "f" (fun _ _ => .int 6) [.int 3]
        [("caching", PyVal.str "readonly")]
        [("'m''f'3", Blob.val (.int 6))] ⟨false, Option.none, Option.none⟩).res
      = .error .verifyFailed
    ∧ cacheArgKeyOf (fun s => s) "m" "f" [.int 3] [] = .ok "'m''f'3"
    ∧ lookupKey [("'m''f'3", Blob.val (.int 6))] "'m''f'3"
        = Option.some (Blob.val (.int 6)) := by
  refine ⟨?_, ?_, rfl⟩
  · simp +decide [wrapperCall, kwLookup, pyLower, wrapperCore, logVerify, kwErase]
  · rw [cacheArgKeyOf, uniqueHashStream_mf3]
    exact congrArg Except.ok join_mf3

/-- C4 (amended): the control keyword accepts exactly the four string tokens
`'yes'`, `'no'`, `'clear'`, `'update'` (after lower-casing), with their
documented semantics — `'yes'` behaves exactly like omitting the keyword,
`'no'` bypasses the cache, `'clear'` deletes the entry and recomputes without
writing, `'update'` deletes the entry then recomputes and writes; any other
string token — in particular the mode names `'readonly'`, `'on'`, `'gen'`,
`'off'` — makes the call fail with the verification error before any hashing
or storage access, with the store, the wrapper attributes and the warning
count untouched and the target not invoked; and a non-string control value
fails with `AttributeError` (from `.lower()`) likewise before any access.
There is no per-call readonly mode. -/
theorem wrapper_control_token_semantics (digest : String → String)
    (root mod name : String) (f : List PyVal → List (String × PyVal) → PyVal)
    (vargs : List PyVal) (kwargs : List (String × PyVal))
    (st : List (String × Blob)) (ws : WState) (s : String)
    (hc : kwLookup kwargs "caching" = Option.some (.str s)) :
    (pyLower s = "yes" →
      wrapperCall digest root mod name f vargs kwargs st ws
        = wrapperCall digest root mod name f vargs (kwErase kwargs "caching") st ws)
    ∧ (pyLower s = "no" →
      wrapperCall digest root mod name f vargs kwargs st ws
        = ⟨.ok (f vargs (kwErase kwargs "caching")), st,
            ⟨false, Option.none, Option.none⟩, 0, 1⟩)
    ∧ (pyLower s = "clear" → ∀ strm : List String,
      uniqueHashStream [.str mod, .str name, .list vargs,
          .dict (toEntries (kwErase kwargs "caching"))] [] = .ok strm →
      wrapperCall digest root mod name f vargs kwargs st ws
        = ⟨.ok (f vargs (kwErase kwargs "caching")),
            eraseKey st (digest (String.join strm)),
            ⟨false, Option.some (digest (String.join strm)),
              Option.some (fullKeyName (cacheDirPath root mod name)
                (digest (String.join strm)))⟩, 0, 1⟩)
    ∧ (pyLower s = "update" → ∀ strm : List String,
      uniqueHashStream [.str mod, .str name, .list vargs,
          .dict (toEntries (kwErase kwargs "caching"))] [] = .ok strm →
      wrapperCall digest root mod name f vargs kwargs st ws
        = ⟨.ok (f vargs (kwErase kwargs "caching")),
            insertKey (insertKey (eraseKey st (digest (String.join strm)))
                (digest (String.join strm))
                (.val (f vargs (kwErase kwargs "caching"))))
              (digest (String.join strm))
              (.val (f vargs (kwErase kwargs "caching"))),
            ⟨false, Option.some (digest (String.join strm)),
              Option.some (fullKeyName (cacheDirPath root mod name)
                (digest (String.join strm)))⟩, 0, 1⟩)
    ∧ (pyLower s ≠ "yes" → pyLower s ≠ "no" → pyLower s ≠ "clear" →
        pyLower s ≠ "update" →
      wrapperCall digest root mod name f vargs kwargs st ws
        = ⟨.error .verifyFailed, st, ws, 0, 0⟩)
    ∧ (∀ (v : PyVal) (kwargs2 : List (String × PyVal)),
        kwLookup kwargs2 "caching" = Option.some v → (∀ t, v ≠ .str t) →
      wrapperCall digest root mod name f vargs kwargs2 st ws
        = ⟨.error .attributeError, st, ws, 0, 0⟩) := by
  refine ⟨?_, ?_, ?_, ?_, ?_, ?_⟩
  · intro hy
    rw [wrapperCall_token digest root mod name f vargs kwargs st ws s hc, hy]
    simp [wrapperCall, kwLookup_kwErase]
  · intro hn
    rw [wrapperCall_token digest root mod name f vargs kwargs st ws s hc, hn]
    simp [wrapperCore]
  · intro hcl strm hstrm
    rw [wrapperCall_token digest root mod name f vargs kwargs st ws s hc, hcl]
    exact wrapperCore_clear_eval digest root mod name f vargs _ st ws strm hstrm _ rfl
  · intro hup strm hstrm
    rw [wrapperCall_token digest root mod name f vargs kwargs st ws s hc, hup]
    exact wrapperCore_update_eval digest root mod name f vargs _ st ws strm hstrm _ rfl
  · intro h1 h2 h3 h4
    rw [wrapperCall_token digest root mod name f vargs kwargs st ws s hc]
    simp [wrapperCore, logVerify, h1, h2, h3, h4]
  · intro v kwargs2 hc2 hv
    cases v with
    | str t => exact absurd rfl (hv t)
    | none => simp [wrapperCall, hc2]
    | int n => simp [wrapperCall, hc2]
    | bool b => simp [wrapperCall, hc2]
    | list xs => simp [wrapperCall, hc2]
    | dict es => simp [wrapperCall, hc2]
    | func n => simp [wrapperCall, hc2]

/-- Witness for C4: at concrete calls, `'UPDATE'` deletes and rewrites,
`'clear'` deletes without writing, `'YES'` equals the call with the keyword
absent, `'readonly'` is rejected with the verification error, and a non-string
control value fails with `AttributeError`. -/
theorem wrapper_control_token_semantics_witness :
    kwLookup [("caching", PyVal.str "UPDATE")] "caching"
      = Option.some (.str "UPDATE")
    ∧ pyLower "UPDATE" = "update"
    ∧ wrapperCall (fun s => s) "r/" "m" "f" (fun _ _ => .int 6) [.int 3]
        [("caching", PyVal.str "UPDATE")] [("'m''f'3", Blob.val (.int 7))]
        ⟨false, Option.none, Option.none⟩
      = ⟨.ok (.int 6),
          insertKey (insertKey (eraseKey [("'m''f'3", Blob.val (.int 7))]
              ((fun s => s) (String.join ["'m'", "'f'", "3"])))
            ((fun s => s) (String.join ["'m'", "'f'", "3"])) (.val (.int 6)))
            ((fun s => s) (String.join ["'m'", "'f'", "3"])) (.val (.int 6)),
          ⟨false, Option.some ((fun s => s) (String.join ["'m'", "'f'", "3"])),
            Option.some (fullKeyName (cacheDirPath "r/" "m" "f")
              ((fun s => s) (String.join ["'m'", "'f'", "3"])))⟩, 0, 1⟩
    ∧ wrapperCall (fun s => s) "r/" "m" "f" (fun _ _ => .int 6) [.int 3]
        [("caching", PyVal.str "clear")] [("'m''f'3", Blob.val (.int 7))]
        ⟨false, Option.none, Option.none⟩
      = ⟨.ok (.int 6),
          eraseKey [("'m''f'3", Blob.val (.int 7))]
            ((fun s => s) (String.join ["'m'", "'f'", "3"])),
          ⟨false, Option.some ((fun s => s) (String.join ["'m'", "'f'", "3"])),
            Option.some (fullKeyName (cacheDirPath "r/" "m" "f")
              ((fun s => s) (String.join ["'m'", "'f'", "3"])))⟩, 0, 1⟩
    ∧ wrapperCall (fun s => s) "r/" "m" "f" (fun _ _ => .int 6) [.int 3]
        [("caching", PyVal.str "YES")] [] ⟨false, Option.none, Option.none⟩
      = wrapperCall (fun s => s) "r/" "m" "f" (fun _ _ => .int 6) [.int 3]
        [] [] ⟨false, Option.none, Option.none⟩
    ∧ wrapperCall (fun s => s) "r/" "m" "f" (fun _ _ => .int 6) [.int 3]
        [("caching", PyVal.str "readonly")] [] ⟨false, Option.none, Option.none⟩
      = ⟨.error .verifyFailed, [], ⟨false, Option.none, Option.none⟩, 0, 0⟩
    ∧ wrapperCall (fun s => s) "r/" "m" "f" (fun _ _ => .int 6) [.int 3]
        [("caching", PyVal.int 1)] [] ⟨false, Option.none, Option.none⟩
      = ⟨.error .attributeError, [], ⟨false, Option.none, Option.none⟩, 0, 0⟩ := by
  refine ⟨rfl, by decide, ?_, ?_, ?_, ?_, ?_⟩
  · exact (wrapper_control_token_semantics (fun s => s) "r/" "m" "f"
      (fun _ _ => .int 6) [.int 3] [("caching", PyVal.str "UPDATE")]
      [("'m''f'3", Blob.val (.int 7))] ⟨false, Option.none, Option.none⟩
      "UPDATE" rfl).2.2.2.1 (by decide) ["'m'", "'f'", "3"] uniqueHashStream_mf3
  · exact (wrapper_control_token_semantics (fun s => s) "r/" "m" "f"
      (fun _ _ => .int 6) [.int 3] [("caching", PyVal.str "clear")]
      [("'m''f'3", Blob.val (.int 7))] ⟨false, Option.none, Option.none⟩
      "clear" rfl).2.2.1 (by decide) ["'m'", "'f'", "3"] uniqueHashStream_mf3
  · exact (wrapper_control_token_semantics (fun s => s) "r/" "m" "f"
      (fun _ _ => .int 6) [.int 3] [("caching", PyVal.str "YES")]
      [] ⟨false, Option.none, Option.none⟩ "YES" rfl).1 (by decide)
  · exact (wrapper_control_token_semantics (fun s => s) "r/" "m" "f"
      (fun _ _ => .int 6) [.int 3] [("caching", PyVal.str "readonly")]
      [] ⟨false, Option.none, Option.none⟩ "readonly" rfl).2.2.2.2.1
      (by decide) (by decide) (by decide) (by decide)
  · exact (wrapper_control_token_semantics (fun s => s) "r/" "m" "f"
      (fun _ _ => .int 6) [.int 3] [("caching", PyVal.str "readonly")]
      [] ⟨false, Option.none, Option.none⟩ "readonly" rfl).2.2.2.2.2
      (PyVal.int 1) [("caching", PyVal.int 1)] rfl
      (fun t h => PyVal.noConfusion h)

/-! ## C1 -/

/-- C1: memoization correctness for a pure wrapped function under the default
mode (`caching` absent, i.e. `'yes'`, the code's spelling of `On`), starting
from a store with no entry at the computed key: the first call returns
`f`'s result, the second call with the identical arguments returns a result
equal to the first call's result with `cached = true` afterwards, and the body
of `f` runs exactly once across the two calls. -/
theorem wrapper_memoizes_pure_function (digest : String → String)
    (root mod name : String) (f : List PyVal → List (String × PyVal) → PyVal)
    (vargs : List PyVal) (kwargs : List (String × PyVal))
    (st : List (String × Blob)) (ws : WState) (strm : List String)
    (hnc : kwLookup kwargs "caching" = Option.none)
    (hstrm : uniqueHashStream [.str mod, .str name, .list vargs, .dict (toEntries kwargs)] []
      = .ok strm)
    (hmiss : lookupKey st (digest (String.join strm)) = Option.none) :
    (wrapperCall digest root mod name f vargs kwargs st ws).res = .ok (f vargs kwargs)
    ∧ (wrapperCall digest root mod name f vargs kwargs
        (wrapperCall digest root mod name f vargs kwargs st ws).store
        (wrapperCall digest root mod name f vargs kwargs st ws).ws).res
      = (wrapperCall digest root mod name f vargs kwargs st ws).res
    ∧ (wrapperCall digest root mod name f vargs kwargs
        (wrapperCall digest root mod name f vargs kwargs st ws).store
        (wrapperCall digest root mod name f vargs kwargs st ws).ws).ws.cached = true
    ∧ (wrapperCall digest root mod name f vargs kwargs st ws).fCalls
      + (wrapperCall digest root mod name f vargs kwargs
          (wrapperCall digest root mod name f vargs kwargs st ws).store
          (wrapperCall digest root mod name f vargs kwargs st ws).ws).fCalls = 1 := by
  have h1 : wrapperCall digest root mod name f vargs kwargs st ws =
      ⟨.ok (f vargs kwargs),
        insertKey (insertKey st (digest (String.join strm)) (.val (f vargs kwargs)))
          (digest (String.join strm)) (.val (f vargs kwargs)),
        ⟨false, Option.some (digest (String.join strm)),
          Option.some (fullKeyName (cacheDirPath root mod name)
            (digest (String.join strm)))⟩, 0, 1⟩ := by
    rw [wrapperCall_default digest root mod name f vargs kwargs st ws hnc]
    exact wrapperCore_yes_miss digest root mod name f vargs kwargs st ws strm hstrm
      _ rfl hmiss
  have hhit : lookupKey
      (insertKey (insertKey st (digest (String.join strm)) (.val (f vargs kwargs)))
        (digest (String.join strm)) (.val (f vargs kwargs)))
      (digest (String.join strm)) = Option.some (.val (f vargs kwargs)) :=
    lookupKey_insertKey _ _ _
  have h2 : wrapperCall digest root mod name f vargs kwargs
      (wrapperCall digest root mod name f vargs kwargs st ws).store
      (wrapperCall digest root mod name f vargs kwargs st ws).ws =
      ⟨.ok (f vargs kwargs),
        insertKey (insertKey st (digest (String.join strm)) (.val (f vargs kwargs)))
          (digest (String.join strm)) (.val (f vargs kwargs)),
        ⟨true, Option.some (digest (String.join strm)),
          Option.some (fullKeyName (cacheDirPath root mod name)
            (digest (String.join strm)))⟩, 0, 0⟩ := by
    rw [h1]
    rw [wrapperCall_default digest root mod name f vargs kwargs _ _ hnc]
    exact wrapperCore_yes_hit digest root mod name f vargs kwargs _ _ strm hstrm
      _ rfl _ hhit
  rw [h1] at h2 ⊢
  rw [h2]
  exact ⟨rfl, rfl, rfl, rfl⟩

/-- Witness for C1: the concrete call `f(3)` with `f = fun args -> 6`,
module `m`, function name `f`, empty store, identity digest. -/
theorem wrapper_memoizes_pure_function_witness :
    kwLookup ([] : List (String × PyVal)) "caching" = Option.none
    ∧ lookupKey ([] : List (String × Blob)) ((fun s => s) (String.join ["'m'", "'f'", "3"]))
        = Option.none
    ∧ ((wrapperCall (fun s => s) "r/" "m" "f" (fun _ _ => .int 6) [.int 3] [] []
          ⟨false, Option.none, Option.none⟩).res = .ok (.int 6)
      ∧ (wrapperCall (fun s => s) "r/" "m" "f" (fun _ _ => .int 6) [.int 3] []
          (wrapperCall (fun s => s) "r/" "m" "f" (fun _ _ => .int 6) [.int 3] [] []
            ⟨false, Option.none, Option.none⟩).store
          (wrapperCall (fun s => s) "r/" "m" "f" (fun _ _ => .int 6) [.int 3] [] []
            ⟨false, Option.none, Option.none⟩).ws).res
        = (wrapperCall (fun s => s) "r/" "m" "f" (fun _ _ => .int 6) [.int 3] [] []
            ⟨false, Option.none, Option.none⟩).res
      ∧ (wrapperCall (fun s => s) "r/" "m" "f" (fun _ _ => .int 6) [.int 3] []
          (wrapperCall (fun s => s) "r/" "m" "f" (fun _ _ => .int 6) [.int 3] [] []
            ⟨false, Option.none, Option.none⟩).store
          (wrapperCall (fun s => s) "r/" "m" "f" (fun _ _ => .int 6) [.int 3] [] []
            ⟨false, Option.none, Option.none⟩).ws).ws.cached = true
      ∧ (wrapperCall (fun s => s) "r/" "m" "f" (fun _ _ => .int 6) [.int 3] [] []
          ⟨false, Option.none, Option.none⟩).fCalls
        + (wrapperCall (fun s => s) "r/" "m" "f" (fun _ _ => .int 6) [.int 3] []
            (wrapperCall (fun s => s) "r/" "m" "f" (fun _ _ => .int 6) [.int 3] [] []
              ⟨false, Option.none, Option.none⟩).store
            (wrapperCall (fun s => s) "r/" "m" "f" (fun _ _ => .int 6) [.int 3] [] []
              ⟨false, Option.none, Option.none⟩).ws).fCalls = 1) :=
  ⟨rfl, rfl,
    wrapper_memoizes_pure_function (fun s => s) "r/" "m" "f" (fun _ _ => .int 6)
      [.int 3] [] [] ⟨false, Option.none, Option.none⟩ ["'m'", "'f'", "3"]
      rfl uniqueHashStream_mf3 rfl⟩

/-! ## C3 -/

/-- C3 counterexample: the claim says a corrupt stored entry makes the wrapped
call behave as a cache miss — target invoked, its result returned, no
exception.  At the concrete call `f(3)` with the store holding EOF-corrupt
content at the computed key `'m''f'3`, the wrapped call instead raises
`KeyError` and the target is never invoked (`fCalls = 0`); the entry is
deleted and one warning is logged, as the claim also says. -/
theorem wrapper_corrupt_read_counterexample :
    (wrapperCall (fun s => s) "r/" "m" "f" (fun _ _ => .int 6) [.int 3] []
        [("'m''f'3", Blob.corruptEOF)] ⟨false, Option.none, Option.none⟩).res
      = .error (.keyError "'m''f'3")
    ∧ (wrapperCall (fun s => s) "r/" "m" "f" (fun _ _ => .int 6) [.int 3] []
        [("'m''f'3", Blob.corruptEOF)] ⟨false, Option.none, Option.none⟩).fCalls = 0
    ∧ lookupKey (wrapperCall (fun s => s) "r/" "m" "f" (fun _ _ => .int 6) [.int 3] []
        [("'m''f'3", Blob.corruptEOF)] ⟨false, Option.none, Option.none⟩).store
        "'m''f'3" = Option.none
    ∧ (wrapperCall (fun s => s) "r/" "m" "f" (fun _ _ => .int 6) [.int 3] []
        [("'m''f'3", Blob.corruptEOF)] ⟨false, Option.none, Option.none⟩).warns = 1 := by
  have h1 : wrapperCall (fun s => s) "r/" "m" "f" (fun _ _ => .int 6) [.int 3] []
      [("'m''f'3", Blob.corruptEOF)] ⟨false, Option.none, Option.none⟩ =
      ⟨.error (.keyError "'m''f'3"),
        eraseKey [("'m''f'3", Blob.corruptEOF)] "'m''f'3",
        ⟨true, Option.some "'m''f'3",
          Option.some (fullKeyName (cacheDirPath "r/" "m" "f") "'m''f'3")⟩, 1, 0⟩ := by
    rw [wrapperCall_default (fun s => s) "r/" "m" "f" (fun _ _ => .int 6) [.int 3] []
      [("'m''f'3", Blob.corruptEOF)] ⟨false, Option.none, Option.none⟩ rfl]
    have := wrapperCore_yes_eof (fun s => s) "r/" "m" "f" (fun _ _ => .int 6)
      [.int 3] [] [("'m''f'3", Blob.corruptEOF)] ⟨false, Option.none, Option.none⟩
      ["'m'", "'f'", "3"] uniqueHashStream_mf3 "'m''f'3"
      (by exact join_mf3.symm) rfl
    exact this
  rw [h1]
  exact ⟨rfl, rfl, rfl, rfl⟩

/-- C3 (amended): under the default mode, when the stored entry at the
computed key raises `EOFError` during unpickling, the wrapped call deletes the
entry and logs one warning, but then raises `KeyError` to the caller without
invoking the target function (`fCalls = 0`; only the next call is a miss that
recomputes); and when the stored entry raises a deserialization failure other
than `EOFError`, that failure propagates to the caller unchanged — nothing is
deleted, nothing is logged, and the target is not invoked. -/
theorem wrapper_corrupt_read_deletes_warns_raises (digest : String → String)
    (root mod name : String) (f : List PyVal → List (String × PyVal) → PyVal)
    (vargs : List PyVal) (kwargs : List (String × PyVal))
    (st : List (String × Blob)) (ws : WState) (strm : List String)
    (hnc : kwLookup kwargs "caching" = Option.none)
    (hstrm : uniqueHashStream [.str mod, .str name, .list vargs, .dict (toEntries kwargs)] []
      = .ok strm) :
    (lookupKey st (digest (String.join strm)) = Option.some .corruptEOF →
      wrapperCall digest root mod name f vargs kwargs st ws =
        ⟨.error (.keyError (digest (String.join strm))),
          eraseKey st (digest (String.join strm)),
          ⟨true, Option.some (digest (String.join strm)),
            Option.some (fullKeyName (cacheDirPath root mod name)
              (digest (String.join strm)))⟩, 1, 0⟩)
    ∧ (lookupKey st (digest (String.join strm)) = Option.some .corruptOther →
      wrapperCall digest root mod name f vargs kwargs st ws =
        ⟨.error .unpickleFailed, st,
          ⟨true, Option.some (digest (String.join strm)),
            Option.some (fullKeyName (cacheDirPath root mod name)
              (digest (String.join strm)))⟩, 0, 0⟩) := by
  constructor
  · intro hcor
    rw [wrapperCall_default digest root mod name f vargs kwargs st ws hnc]
    exact wrapperCore_yes_eof digest root mod name f vargs kwargs st ws strm hstrm
      _ rfl hcor
  · intro hcor
    rw [wrapperCall_default digest root mod name f vargs kwargs st ws hnc]
    exact wrapperCore_yes_other digest root mod name f vargs kwargs st ws strm hstrm
      _ rfl hcor

/-- Witness for C3 at two concrete corrupt stores (distinct from the
counterexample's store, to keep the theorems independent): an EOF-corrupt
entry is deleted with one warning and a `KeyError`, and an otherwise-corrupt
entry propagates the unpickling failure with the store and warnings
untouched; the target runs zero times in both. -/
theorem wrapper_corrupt_read_deletes_warns_raises_witness :
    kwLookup ([] : List (String × PyVal)) "caching" = Option.none
    ∧ lookupKey [("x", Blob.val (.int 9)), ("'m''f'3", Blob.corruptEOF)]
        ((fun s => s) (String.join ["'m'", "'f'", "3"])) = Option.some .corruptEOF
    ∧ wrapperCall (fun s => s) "r/" "m" "f" (fun _ _ => .int 6) [.int 3] []
        [("x", Blob.val (.int 9)), ("'m''f'3", Blob.corruptEOF)]
        ⟨false, Option.none, Option.none⟩ =
      ⟨.error (.keyError ((fun s => s) (String.join ["'m'", "'f'", "3"]))),
        eraseKey [("x", Blob.val (.int 9)), ("'m''f'3", Blob.corruptEOF)]
          ((fun s => s) (String.join ["'m'", "'f'", "3"])),
        ⟨true, Option.some ((fun s => s) (String.join ["'m'", "'f'", "3"])),
          Option.some (fullKeyName (cacheDirPath "r/" "m" "f")
            ((fun s => s) (String.join ["'m'", "'f'", "3"])))⟩, 1, 0⟩
    ∧ wrapperCall (fun s => s) "r/" "m" "f" (fun _ _ => .int 6) [.int 3] []
        [("'m''f'3", Blob.corruptOther)] ⟨false, Option.none, Option.none⟩ =
      ⟨.error .unpickleFailed, [("'m''f'3", Blob.corruptOther)],
        ⟨true, Option.some ((fun s => s) (String.join ["'m'", "'f'", "3"])),
          Option.some (fullKeyName (cacheDirPath "r/" "m" "f")
            ((fun s => s) (String.join ["'m'", "'f'", "3"])))⟩, 0, 0⟩ :=
  ⟨rfl, by rw [join_mf3]; rfl,
    (wrapper_corrupt_read_deletes_warns_raises (fun s => s)
      "r/" "m" "f" (fun _ _ => .int 6) [.int 3] []
      [("x", Blob.val (.int 9)), ("'m''f'3", Blob.corruptEOF)]
      ⟨false, Option.none, Option.none⟩ ["'m'", "'f'", "3"]
      rfl uniqueHashStream_mf3).1 (by rw [join_mf3]; rfl),
    (wrapper_corrupt_read_deletes_warns_raises (fun s => s)
      "r/" "m" "f" (fun _ _ => .int 6) [.int 3] []
      [("'m''f'3", Blob.corruptOther)]
      ⟨false, Option.none, Option.none⟩ ["'m'", "'f'", "3"]
      rfl uniqueHashStream_mf3).2 (by rw [join_mf3]; rfl)⟩

/-! ## Canonicalization lemmas for the mapping branch (C8, C9) -/

theorem toEntries_allStr (kw : List (String × PyVal)) :
    (toEntries kw).all (fun e => isStrKey e.1) = true := by
  induction kw with
  | nil => rfl
  | cons p t ih => simpa [toEntries, isStrKey] using ih

theorem pySortEntries_allStr (es : List (PyVal × PyVal))
    (h : es.all (fun e => isStrKey e.1) = true) :
    pySortEntries es = .ok (es.insertionSort entryLeStr) := by
  unfold pySortEntries
  split
  case isTrue hlen =>
    match es, hlen with
    | [], _ => rfl
    | [e], _ => rfl
  case isFalse => simp [h]

theorem visit_dict_allStr (es : List (PyVal × PyVal))
    (h : es.all (fun e => isStrKey e.1) = true) :
    visit (.dict es) = visitEntries (es.insertionSort entryLeStr) := by
  rw [visit, pySortEntries_allStr es h]

theorem keyStr_map_toEntries (kw : List (String × PyVal)) :
    (toEntries kw).map (fun e => keyStr e.1) = kw.map Prod.fst := by
  simp [toEntries, List.map_map, keyStr, Function.comp]

/-- Entry lists that are permutations of each other, both sorted by key, with
no duplicate keys, are equal. -/
theorem sorted_entries_eq {l1 l2 : List (PyVal × PyVal)} (hperm : l1.Perm l2)
    (hs1 : l1.Pairwise entryLeStr) (hs2 : l2.Pairwise entryLeStr)
    (hnd : (l1.map (fun e => keyStr e.1)).Nodup) : l1 = l2 := by
  have hnd2 : (l2.map (fun e => keyStr e.1)).Nodup := (hperm.map _).nodup_iff.mp hnd
  have hne1 : l1.Pairwise (fun a b => keyStr a.1 ≠ keyStr b.1) := List.pairwise_map.mp hnd
  have hne2 : l2.Pairwise (fun a b => keyStr a.1 ≠ keyStr b.1) := List.pairwise_map.mp hnd2
  have hlt1 : l1.Pairwise entryLtStr :=
    (hs1.and hne1).imp (fun h => lt_of_le_of_ne h.1 h.2)
  have hlt2 : l2.Pairwise entryLtStr :=
    (hs2.and hne2).imp (fun h => lt_of_le_of_ne h.1 h.2)
  exact List.eq_of_perm_of_sorted hperm hlt1 hlt2

/-- The visit of the sorted entries only depends on the entries that survive
the leading-underscore skip (for all-string-key entry lists). -/
theorem visitEntries_filter_underscore (es : List (PyVal × PyVal))
    (h : es.all (fun e => isStrKey e.1) = true) :
    visitEntries es
      = visitEntries (es.filter (fun e => !((keyStr e.1).take 1 == "_"))) := by
  induction es with
  | nil => rfl
  | cons e t ih =>
    obtain ⟨k, v⟩ := e
    simp only [List.all_cons, Bool.and_eq_true] at h
    obtain ⟨hk, ht⟩ := h
    match k, hk with
    | .str s, _ =>
      by_cases hu : s.take 1 = "_"
      · simp [visitEntries, keySkip, keyStr, hu, ih ht]
      · simp [visitEntries, keySkip, keyStr, hu, ih ht]

theorem allStr_insertionSort (es : List (PyVal × PyVal))
    (h : es.all (fun e => isStrKey e.1) = true) :
    ((es.insertionSort entryLeStr).all (fun e => isStrKey e.1)) = true := by
  rw [List.all_eq_true] at h ⊢
  intro x hx
  exact h x ((List.perm_insertionSort entryLeStr es).subset hx)

theorem uniqueHashStream_perm (kwA kwB : List (String × PyVal)) (hperm : kwA.Perm kwB)
    (hnd : (kwA.map Prod.fst).Nodup) :
    uniqueHashStream [] kwA = uniqueHashStream [] kwB := by
  have hndA : ((toEntries kwA).map (fun e => keyStr e.1)).Nodup := by
    rw [keyStr_map_toEntries]; exact hnd
  have hsorted :
      (toEntries kwA).insertionSort entryLeStr
        = (toEntries kwB).insertionSort entryLeStr := by
    apply sorted_entries_eq
    · exact (List.perm_insertionSort _ _).trans
        ((hperm.map _).trans (List.perm_insertionSort _ _).symm)
    · exact List.sorted_insertionSort _ _
    · exact List.sorted_insertionSort _ _
    · exact (((List.perm_insertionSort _ _).map _).nodup_iff).mpr hndA
  unfold uniqueHashStream
  rw [visit_dict_allStr _ (toEntries_allStr kwA),
    visit_dict_allStr _ (toEntries_allStr kwB), hsorted]

/-! ## C9 -/

/-- C9: order-insensitivity for mappings — two keyword-argument mappings that
are permutations of each other (equal as sets of key/value pairs, no duplicate
keys) hash to the same digest, for any digest length, because the mapping
branch sorts the keys before feeding them. -/
theorem uniqueHash_mapping_order_insensitive (md5 : String → String)
    (shake : String → Nat → String) (length : Option Nat)
    (kwA kwB : List (String × PyVal)) (hperm : kwA.Perm kwB)
    (hnd : (kwA.map Prod.fst).Nodup) :
    uniqueHashExtM md5 shake length [] kwA = uniqueHashExtM md5 shake length [] kwB := by
  unfold uniqueHashExtM
  rw [uniqueHashStream_perm kwA kwB hperm hnd]

/-- Witness for C9: `hash(a=1, b=2)` equals `hash(b=2, a=1)`. -/
theorem uniqueHash_mapping_order_insensitive_witness :
    (([("a", PyVal.int 1), ("b", PyVal.int 2)] : List (String × PyVal)).Perm
        [("b", PyVal.int 2), ("a", PyVal.int 1)])
    ∧ (([("a", PyVal.int 1), ("b", PyVal.int 2)].map Prod.fst).Nodup)
    ∧ uniqueHashExtM md5Model shakeModel Option.none []
        [("a", PyVal.int 1), ("b", PyVal.int 2)]
      = uniqueHashExtM md5Model shakeModel Option.none []
        [("b", PyVal.int 2), ("a", PyVal.int 1)] :=
  ⟨List.Perm.swap _ _ _, by decide,
    uniqueHash_mapping_order_insensitive md5Model shakeModel Option.none _ _
      (List.Perm.swap _ _ _) (by decide)⟩

/-! ## C8 -/

theorem toEntries_filter (kw : List (String × PyVal)) :
    (toEntries kw).filter (fun e => !((keyStr e.1).take 1 == "_"))
      = toEntries (kw.filter (fun p => !(p.1.take 1 == "_"))) := by
  induction kw with
  | nil => rfl
  | cons p t ih =>
    by_cases hp : (p.1.take 1 == "_") = true
    · simpa [toEntries, keyStr, hp] using ih
    · simpa [toEntries, keyStr, hp] using ih

theorem uniqueHashStream_underscore (kwA kwB : List (String × PyVal))
    (hndA : (kwA.map Prod.fst).Nodup) (hndB : (kwB.map Prod.fst).Nodup)
    (hfil : kwA.filter (fun p => !(p.1.take 1 == "_"))
      = kwB.filter (fun p => !(p.1.take 1 == "_"))) :
    uniqueHashStream [] kwA = uniqueHashStream [] kwB := by
  have key : ∀ kw : List (String × PyVal), (kw.map Prod.fst).Nodup →
      visit (.dict (toEntries kw))
        = visitEntries ((toEntries (kw.filter (fun p => !(p.1.take 1 == "_")))).insertionSort
            entryLeStr) := by
    intro kw hnd
    have hndE : ((toEntries kw).map (fun e => keyStr e.1)).Nodup := by
      rw [keyStr_map_toEntries]; exact hnd
    rw [visit_dict_allStr _ (toEntries_allStr kw)]
    rw [visitEntries_filter_underscore _ (allStr_insertionSort _ (toEntries_allStr kw))]
    congr 1
    apply sorted_entries_eq
    · refine (((List.perm_insertionSort entryLeStr (toEntries kw)).filter _).trans ?_)
      rw [toEntries_filter]
      exact (List.perm_insertionSort _ _).symm
    · exact (List.sorted_insertionSort _ _).sublist (List.filter_sublist _)
    · exact List.sorted_insertionSort _ _
    · have hsub : List.Sublist
          ((((toEntries kw).insertionSort entryLeStr).filter
            (fun e => !((keyStr e.1).take 1 == "_"))).map (fun e => keyStr e.1))
          ((((toEntries kw).insertionSort entryLeStr)).map (fun e => keyStr e.1)) :=
        (List.filter_sublist _).map _
      have hns : ((((toEntries kw).insertionSort entryLeStr)).map
          (fun e => keyStr e.1)).Nodup :=
        (((List.perm_insertionSort _ _).map _).nodup_iff).mpr hndE
      exact hns.sublist hsub
  unfold uniqueHashStream
  rw [key kwA hndA, key kwB hndB, hfil]

/-- C8: keys whose textual form starts with `'_'` are excluded from the hash
input (key and value both), so two keyword-argument mappings that agree on
their non-underscore entries — whatever leading-underscore entries each of
them adds, removes, or changes — hash to the same digest, for any digest
length. -/
theorem uniqueHash_underscore_keys_excluded (md5 : String → String)
    (shake : String → Nat → String) (length : Option Nat)
    (kwA kwB : List (String × PyVal))
    (hndA : (kwA.map Prod.fst).Nodup) (hndB : (kwB.map Prod.fst).Nodup)
    (hfil : kwA.filter (fun p => !(p.1.take 1 == "_"))
      = kwB.filter (fun p => !(p.1.take 1 == "_"))) :
    uniqueHashExtM md5 shake length [] kwA = uniqueHashExtM md5 shake length [] kwB := by
  unfold uniqueHashExtM
  rw [uniqueHashStream_underscore kwA kwB hndA hndB hfil]

/-- Witness for C8: `hash(x=1, _mode='on')` equals `hash(x=1, _mode='update')`. -/
theorem uniqueHash_underscore_keys_excluded_witness :
    (([("x", PyVal.int 1), ("_mode", PyVal.str "on")] : List (String × PyVal)).filter
        (fun p => !(p.1.take 1 == "_"))
      = ([("x", PyVal.int 1), ("_mode", PyVal.str "update")] : List (String × PyVal)).filter
        (fun p => !(p.1.take 1 == "_")))
    ∧ uniqueHashExtM md5Model shakeModel Option.none []
        [("x", PyVal.int 1), ("_mode", PyVal.str "on")]
      = uniqueHashExtM md5Model shakeModel Option.none []
        [("x", PyVal.int 1), ("_mode", PyVal.str "update")] :=
  ⟨rfl,
    uniqueHash_underscore_keys_excluded md5Model shakeModel Option.none _ _
      (by decide) (by decide) rfl⟩

/-! ## Python string-repr decodability (C6) -/

theorem visitList_cons_skip (k : PyVal) (rest : List PyVal) (h : skipElem k = true) :
    visitList (k :: rest) = visitList rest := by
  rw [visitList]
  simp [h]

theorem visitList_cons_keep (k : PyVal) (rest : List PyVal) (h : skipElem k = false)
    (s srest : List String) (hk : visit k = .ok s) (hr : visitList rest = .ok srest) :
    visitList (k :: rest) = .ok (s ++ srest) := by
  rw [visitList]
  simp [h, hk, hr]

theorem visit_str (s : String) : visit (.str s) = .ok [pyStrRepr s] := by
  rw [visit]; rfl

theorem visitList_nil : visitList [] = .ok [] := by
  rw [visitList]

theorem visit_list_eq (xs : List PyVal) : visit (.list xs) = visitList xs := by
  rw [visit]

theorem pyCharEsc_esc (q c : Char) (hb : c = '\\' ∨ c = q) :
    pyCharEsc q c = ['\\', c] := by
  unfold pyCharEsc
  rw [if_pos hb]

theorem pyCharEsc_printable (q c : Char) (hp : printableASCII c)
    (hnb : ¬ (c = '\\' ∨ c = q)) : pyCharEsc q c = [c] := by
  obtain ⟨h1, h2⟩ := hp
  have hn : ¬ c = '\n' := by intro he; rw [he] at h1; exact absurd h1 (by decide)
  have hr : ¬ c = '\r' := by intro he; rw [he] at h1; exact absurd h1 (by decide)
  have ht : ¬ c = '\t' := by intro he; rw [he] at h1; exact absurd h1 (by decide)
  unfold pyCharEsc
  rw [if_neg hnb, if_neg hn, if_neg hr, if_neg ht, if_pos ⟨h1, h2⟩]

theorem pyQuote_cases (s : String) : pyQuote s = '\'' ∨ pyQuote s = '"' := by
  unfold pyQuote
  split
  · exact Or.inr rfl
  · exact Or.inl rfl

theorem pyStrRepr_data (s : String) :
    (pyStrRepr s).data
      = pyQuote s :: (s.data.flatMap (pyCharEsc (pyQuote s)) ++ [pyQuote s]) := rfl

/-- Unique decodability of the escaped body: if two escaped bodies of
printable-ASCII strings followed by the closing quote and arbitrary residues
coincide, the strings and the residues coincide. -/
theorem esc_decode (q : Char) (hq : q = '\'' ∨ q = '"') :
    ∀ (s t : List Char) (x y : List Char),
      (∀ c ∈ s, printableASCII c) → (∀ c ∈ t, printableASCII c) →
      s.flatMap (pyCharEsc q) ++ q :: x = t.flatMap (pyCharEsc q) ++ q :: y →
      s = t ∧ x = y := by
  have hqb : ¬ q = '\\' := by rcases hq with h | h <;> (rw [h]; decide)
  intro s
  induction s with
  | nil =>
    intro t x y _ hpt heq
    cases t with
    | nil =>
      simp only [List.flatMap_nil, List.nil_append] at heq
      injection heq with _ h2
      exact ⟨rfl, h2⟩
    | cons b t2 =>
      exfalso
      simp only [List.flatMap_nil, List.nil_append, List.flatMap_cons,
        List.append_assoc] at heq
      by_cases hb : b = '\\' ∨ b = q
      · rw [pyCharEsc_esc q b hb] at heq
        simp only [List.cons_append, List.nil_append] at heq
        injection heq with h1 _
        exact hqb h1
      · rw [pyCharEsc_printable q b (hpt b (by simp)) hb] at heq
        simp only [List.cons_append, List.nil_append] at heq
        injection heq with h1 _
        exact hb (Or.inr h1.symm)
  | cons a s2 ih =>
    intro t x y hps hpt heq
    have hpa : printableASCII a := hps a (by simp)
    have hps2 : ∀ c ∈ s2, printableASCII c := fun c hc => hps c (by simp [hc])
    cases t with
    | nil =>
      exfalso
      simp only [List.flatMap_nil, List.nil_append, List.flatMap_cons,
        List.append_assoc] at heq
      by_cases ha : a = '\\' ∨ a = q
      · rw [pyCharEsc_esc q a ha] at heq
        simp only [List.cons_append, List.nil_append] at heq
        injection heq with h1 _
        exact hqb h1.symm
      · rw [pyCharEsc_printable q a hpa ha] at heq
        simp only [List.cons_append, List.nil_append] at heq
        injection heq with h1 _
        exact ha (Or.inr h1)
    | cons b t2 =>
      have hpb : printableASCII b := hpt b (by simp)
      have hpt2 : ∀ c ∈ t2, printableASCII c := fun c hc => hpt c (by simp [hc])
      simp only [List.flatMap_cons, List.append_assoc] at heq
      by_cases ha : a = '\\' ∨ a = q <;> by_cases hb : b = '\\' ∨ b = q
      · rw [pyCharEsc_esc q a ha, pyCharEsc_esc q b hb] at heq
        simp only [List.cons_append, List.nil_append] at heq
        injection heq with _ heq2
        injection heq2 with hab heq3
        obtain ⟨hst, hxy⟩ := ih t2 x y hps2 hpt2 heq3
        exact ⟨by rw [hab, hst], hxy⟩
      · rw [pyCharEsc_esc q a ha, pyCharEsc_printable q b hpb hb] at heq
        simp only [List.cons_append, List.nil_append] at heq
        injection heq with h1 _
        exact (hb (Or.inl h1.symm)).elim
      · rw [pyCharEsc_printable q a hpa ha, pyCharEsc_esc q b hb] at heq
        simp only [List.cons_append, List.nil_append] at heq
        injection heq with h1 _
        exact (ha (Or.inl h1)).elim
      · rw [pyCharEsc_printable q a hpa ha, pyCharEsc_printable q b hpb hb] at heq
        simp only [List.cons_append, List.nil_append] at heq
        injection heq with hab heq2
        obtain ⟨hst, hxy⟩ := ih t2 x y hps2 hpt2 heq2
        exact ⟨by rw [hab, hst], hxy⟩

/-- Python string reprs are prefix-decodable: equal concatenations starting
with two reprs of printable-ASCII strings have equal strings and residues. -/
theorem pyStrRepr_decode (s t : String) (r1 r2 : List Char)
    (hps : strPrintable s) (hpt : strPrintable t)
    (heq : (pyStrRepr s).data ++ r1 = (pyStrRepr t).data ++ r2) :
    s = t ∧ r1 = r2 := by
  rw [pyStrRepr_data, pyStrRepr_data] at heq
  simp only [List.cons_append, List.append_assoc, List.singleton_append] at heq
  injection heq with hq hbody
  rw [← hq] at hbody
  obtain ⟨hd, hr⟩ := esc_decode (pyQuote s) (pyQuote_cases s) s.data t.data r1 r2 hps hpt hbody
  refine ⟨?_, hr⟩
  cases s
  cases t
  exact congrArg String.mk hd

theorem cacheArgKeyOf_eval (digest : String → String) (mod name : String)
    (vargs : List PyVal) (kwargs : List (String × PyVal)) (S : List String)
    (hm : skipElem (.str mod) = false) (hn : skipElem (.str name) = false)
    (hS : visitList [.list vargs, .dict (toEntries kwargs)] = .ok S) :
    cacheArgKeyOf digest mod name vargs kwargs
      = .ok (digest (pyStrRepr mod ++ (pyStrRepr name ++ String.join S))) := by
  have h2 : visitList [.str name, .list vargs, .dict (toEntries kwargs)]
      = .ok ([pyStrRepr name] ++ S) :=
    visitList_cons_keep _ _ hn _ _ (visit_str name) hS
  have h1 : visitList [.str mod, .str name, .list vargs, .dict (toEntries kwargs)]
      = .ok ([pyStrRepr mod] ++ ([pyStrRepr name] ++ S)) :=
    visitList_cons_keep _ _ hm _ _ (visit_str mod) h2
  have h0 : uniqueHashStream [.str mod, .str name, .list vargs, .dict (toEntries kwargs)] []
      = .ok (pyStrRepr mod :: (pyStrRepr name :: S)) := by
    unfold uniqueHashStream
    rw [visit_list_eq, h1]
    have hd : visit (.dict (toEntries ([] : List (String × PyVal)))) = .ok [] := visit_dict_nil
    rw [hd]
    simp
  rw [cacheArgKeyOf, h0]
  show Except.ok (digest (String.join (pyStrRepr mod :: (pyStrRepr name :: S))))
      = Except.ok (digest (pyStrRepr mod ++ (pyStrRepr name ++ String.join S)))
  rw [join_cons, join_cons]

/-! ## C6 -/

/-- C6 counterexample: the claim says distinct (module, function-name) pairs
always give distinct cache keys for the same arguments.  But the hasher's
collection branch skips every string element starting with `'_'`, and the
function name is fed as exactly such an element, so two wrapped functions
named `_f` and `_g` in the same module produce the very same update stream —
hence the same cache key under any digest. -/
theorem cacheKey_underscore_name_collision :
    cacheArgKeyOf (fun s => s) "m" "_f" ([] : List PyVal) ([] : List (String × PyVal))
      = cacheArgKeyOf (fun s => s) "m" "_g" [] []
    ∧ ("m", "_f") ≠ ("m", "_g") := by
  constructor
  · have hf : cacheArgKeyOf (fun s => s) "m" "_f" ([] : List PyVal)
        ([] : List (String × PyVal)) = .ok "'m'" := by
      simp +decide [cacheArgKeyOf, uniqueHashStream, visit, visitList, visitEntries,
        pySortEntries, toEntries, skipElem, pyRepr, pyStrRepr, pyQuote, pyCharEsc,
        String.join]
    have hg : cacheArgKeyOf (fun s => s) "m" "_g" ([] : List PyVal)
        ([] : List (String × PyVal)) = .ok "'m'" := by
      simp +decide [cacheArgKeyOf, uniqueHashStream, visit, visitList, visitEntries,
        pySortEntries, toEntries, skipElem, pyRepr, pyStrRepr, pyQuote, pyCharEsc,
        String.join]
    rw [hf, hg]
  · decide

/-- C6 (amended): for module and function names that are printable ASCII and
do not start with `'_'` (true of the Python identifiers the wrapper feeds, but
not of private `_name`s — see the counterexample), distinct
(module, function-name) pairs give distinct cache keys for identical
positional and keyword arguments, for any injective digest: the two reprs are
prefix-decodable from the concatenated update stream.  (The external MD5 is
treated as injective; with a real hash this holds up to hash collisions.) -/
theorem cacheKey_distinct_function_identity (digest : String → String)
    (hinj : Function.Injective digest)
    (mod1 name1 mod2 name2 : String)
    (hp1 : strPrintable mod1) (hp2 : strPrintable name1)
    (hp3 : strPrintable mod2) (hp4 : strPrintable name2)
    (hu1 : mod1.take 1 ≠ "_") (hu2 : name1.take 1 ≠ "_")
    (hu3 : mod2.take 1 ≠ "_") (hu4 : name2.take 1 ≠ "_")
    (hne : (mod1, name1) ≠ (mod2, name2))
    (vargs : List PyVal) (kwargs : List (String × PyVal)) (S : List String)
    (hS : visitList [.list vargs, .dict (toEntries kwargs)] = .ok S) :
    cacheArgKeyOf digest mod1 name1 vargs kwargs
      ≠ cacheArgKeyOf digest mod2 name2 vargs kwargs := by
  intro hcontra
  rw [cacheArgKeyOf_eval digest mod1 name1 vargs kwargs S
      (by simp [skipElem, hu1]) (by simp [skipElem, hu2]) hS,
    cacheArgKeyOf_eval digest mod2 name2 vargs kwargs S
      (by simp [skipElem, hu3]) (by simp [skipElem, hu4]) hS] at hcontra
  injection hcontra with hdig
  have hstr := hinj hdig
  have hdata := congrArg String.data hstr
  rw [String.data_append, String.data_append, String.data_append,
    String.data_append] at hdata
  obtain ⟨hmod, hrest⟩ := pyStrRepr_decode mod1 mod2 _ _ hp1 hp3 hdata
  obtain ⟨hname, _⟩ := pyStrRepr_decode name1 name2 _ _ hp2 hp4 hrest
  exact hne (by rw [hmod, hname])

/-- Witness for C6 at modules `m` and names `f` versus `g` with no arguments
and the identity digest. -/
theorem cacheKey_distinct_function_identity_witness :
    ("m", "f") ≠ ("m", "g")
    ∧ visitList [.list [], .dict (toEntries [])] = .ok []
    ∧ cacheArgKeyOf (fun s => s) "m" "f" [] [] ≠ cacheArgKeyOf (fun s => s) "m" "g" [] [] := by
  have hS : visitList [.list ([] : List PyVal), .dict (toEntries [])] = .ok [] := by
    have h1 : visitList ([.dict (toEntries [])] : List PyVal) = .ok ([] ++ []) :=
      visitList_cons_keep (.dict (toEntries [])) [] rfl [] [] visit_dict_nil visitList_nil
    have h2 : visitList [.list ([] : List PyVal), .dict (toEntries [])]
        = .ok ([] ++ ([] ++ [])) :=
      visitList_cons_keep (.list []) [.dict (toEntries [])] rfl [] ([] ++ [])
        visit_list_nil h1
    simpa using h2
  refine ⟨by decide, hS, ?_⟩
  exact cacheKey_distinct_function_identity (fun s => s) (fun a b h => h)
    "m" "f" "m" "g" (by decide) (by decide) (by decide) (by decide)
    (by decide) (by decide) (by decide) (by decide) (by decide) [] [] [] hS
